import Mathlib

/-!
Shallow embedding of the BashRunner command execution engine
(src/bashrunner/core/command_storage.py and the ANSI stripping of
src/bashrunner/gui/console_view.py).

Python strings are modelled as lists of characters (`PyStr`), Python ints as
`Int`, the persisted commands.json document as a `StoredDoc`, and the OS the
engine launches processes against as an `OSEnv` record of oracles. Fallible
filesystem writes are modelled by the `writeOk` flag passed to
`_save_commands` (the except block there swallows the error, so a failed
write returns normally with the stored document unchanged).
-/

namespace BashRunner

/-- Python str, modelled as its list of characters. -/
abbrev PyStr := List Char

/-- The Command dataclass of command_storage.py: name, command_type
('single', 'multi' or 'script'), content, description. It is a plain
(non-frozen) dataclass: its fields are assignable in place. -/
structure Command where
  name : PyStr
  command_type : PyStr
  content : PyStr
  description : PyStr
deriving Repr, DecidableEq, Inhabited

/-- The JSON object Command.to_dict produces: the four fields keyed by their
names, as stored inside the commands.json document. -/
structure CmdDict where
  name : PyStr
  command_type : PyStr
  content : PyStr
  description : PyStr
deriving Repr, DecidableEq

/-- Command.to_dict: asdict(self). -/
def Command.to_dict (c : Command) : CmdDict :=
  ⟨c.name, c.command_type, c.content, c.description⟩

/-- Command.from_dict: cls(**data). -/
def Command.from_dict (d : CmdDict) : Command :=
  ⟨d.name, d.command_type, d.content, d.description⟩

/-- The persisted commands.json document as _load_commands can find it:
absent (no file), malformed (json.load or Command.from_dict raises), or a
well-formed document holding the serialized command list. -/
inductive StoredDoc where
  | absent : StoredDoc
  | malformed : StoredDoc
  | doc : List CmdDict → StoredDoc
deriving Repr, DecidableEq

/-- The CommandStorage state the claims are about: the in-memory list
self._commands and the persisted document at self.commands_file. -/
structure StorageState where
  commands : List Command
  stored : StoredDoc
deriving Repr, DecidableEq

/-- CommandStorage._load_commands: reads the file if it exists; any exception
while parsing (malformed JSON, wrong keys) is caught and the in-memory list
reset to []; an absent file also yields []. No exception escapes. -/
def _load_commands : StoredDoc → List Command
  | StoredDoc.absent => []
  | StoredDoc.malformed => []
  | StoredDoc.doc ds => ds.map Command.from_dict

/-- CommandStorage.__init__ over a given storage location: the commands list
is loaded eagerly from the persisted document. -/
def init_storage (d : StoredDoc) : StorageState :=
  { commands := _load_commands d, stored := d }

/-- CommandStorage._save_commands: serializes self._commands and writes it.
writeOk says whether the filesystem write succeeds; on failure the except
block logs and returns normally, leaving the stored document as it was. -/
def _save_commands (writeOk : Bool) (s : StorageState) : StorageState :=
  if writeOk then { s with stored := StoredDoc.doc (s.commands.map Command.to_dict) }
  else s

/-- CommandStorage.add_command: appends, then saves. Returns normally in both
cases (the Python method returns None, signalling no failure). -/
def add_command (writeOk : Bool) (s : StorageState) (command : Command) : StorageState :=
  _save_commands writeOk { s with commands := s.commands ++ [command] }

/-- CommandStorage.update_command: replaces the entry at index and saves when
0 <= index < len(self._commands), returning True; otherwise returns False
without touching anything. -/
def update_command (writeOk : Bool) (s : StorageState) (index : Int) (command : Command) :
    StorageState × Bool :=
  if 0 ≤ index ∧ index < (s.commands.length : Int) then
    (_save_commands writeOk { s with commands := s.commands.set index.toNat command }, true)
  else (s, false)

/-- CommandStorage.delete_command: pops the entry at index and saves when the
index is in range, returning True; otherwise returns False. -/
def delete_command (writeOk : Bool) (s : StorageState) (index : Int) : StorageState × Bool :=
  if 0 ≤ index ∧ index < (s.commands.length : Int) then
    (_save_commands writeOk { s with commands := s.commands.eraseIdx index.toNat }, true)
  else (s, false)

/-- CommandStorage.move_command: when both indices are in range against the
current length, pops the entry at from_index, re-inserts it at to_index
(list.insert against the popped list) and saves, returning True; otherwise
returns False. -/
def move_command (writeOk : Bool) (s : StorageState) (from_index to_index : Int) :
    StorageState × Bool :=
  if (0 ≤ from_index ∧ from_index < (s.commands.length : Int)) ∧
      (0 ≤ to_index ∧ to_index < (s.commands.length : Int)) then
    (_save_commands writeOk
      { s with commands :=
          ((s.commands.eraseIdx from_index.toNat).insertIdx to_index.toNat
            (s.commands.getD from_index.toNat default)) }, true)
  else (s, false)

/-- Python text.split(sep) for a one-character separator: splits at every
occurrence of sep, keeping empty pieces. -/
def pySplit (sep : Char) : PyStr → List PyStr
  | [] => [[]]
  | c :: rest =>
    if c = sep then [] :: pySplit sep rest
    else
      match pySplit sep rest with
      | [] => [[c]]
      | p :: ps => (c :: p) :: ps

/-- Python text.strip(): removes leading and trailing whitespace. -/
def pyStrip (s : PyStr) : PyStr :=
  ((s.dropWhile Char.isWhitespace).reverse.dropWhile Char.isWhitespace).reverse

/-- Python "\n".join(pieces). -/
def joinNl : List PyStr → PyStr
  | [] => []
  | [p] => p
  | p :: ps => p ++ '\n' :: joinNl ps

/-- The effective command lines computed inside _execute_multi_commands:
commands = [cmd.strip() for cmd in commands_text.split("\n") if cmd.strip()]
— split on newlines, strip each line, drop the lines that are empty after
stripping. -/
def effective_commands (commands_text : PyStr) : List PyStr :=
  ((pySplit '\n' commands_text).map pyStrip).filter (fun cmd => cmd ≠ [])

/-- The OS environment an execution runs against: whether subprocess.Popen
accepts a given shell text (an exception from Popen means the OS rejected the
launch), whether a path exists on the filesystem, and the eventual exit code
of the launched child. The engine starts the child detached
(start_new_session=True, stdin=DEVNULL) and never calls wait or poll, so the
exit code oracle exists here only so that independence from it can be
stated. -/
structure OSEnv where
  launchOk : PyStr → Bool
  fileExists : PyStr → Bool
  exitCode : PyStr → Int

/-- CommandStorage._execute_single_command: echoes the command line to the
output callback, then hands the payload to Popen(shell=True) and returns True
as soon as the launch is accepted (False when Popen raises). The second
component records the shell texts passed to Popen — the attempted OS
launches, one entry per interpreter invocation. -/
def _execute_single_command (env : OSEnv) (command : PyStr) : Bool × List PyStr :=
  (env.launchOk command, [command])

/-- CommandStorage._execute_multi_commands: computes the effective command
lines; with none it warns and returns False without launching; otherwise the
lines are rejoined with newlines and the combined script is handed to Popen
in a single interpreter invocation. -/
def _execute_multi_commands (env : OSEnv) (commands_text : PyStr) : Bool × List PyStr :=
  if effective_commands commands_text = [] then (false, [])
  else
    (env.launchOk (joinNl (effective_commands commands_text)),
      [joinNl (effective_commands commands_text)])

/-- CommandStorage._execute_script: checks script_file.exists() first and
returns False without any Popen call when the path is absent; otherwise the
path is handed to Popen(shell=True). -/
def _execute_script (env : OSEnv) (script_path : PyStr) : Bool × List PyStr :=
  if env.fileExists script_path then (env.launchOk script_path, [script_path])
  else (false, [])

/-- CommandStorage.execute_command: rejects an out-of-range index with False,
otherwise dispatches on the command_type string; an unknown type is rejected
with False and no launch. The state is returned alongside: execution never
mutates the command list and never saves. -/
def execute_command (env : OSEnv) (s : StorageState) (index : Int) :
    StorageState × Bool × List PyStr :=
  if 0 ≤ index ∧ index < (s.commands.length : Int) then
    if (s.commands.getD index.toNat default).command_type = "single".data then
      (s, _execute_single_command env (s.commands.getD index.toNat default).content)
    else if (s.commands.getD index.toNat default).command_type = "multi".data then
      (s, _execute_multi_commands env (s.commands.getD index.toNat default).content)
    else if (s.commands.getD index.toNat default).command_type = "script".data then
      (s, _execute_script env (s.commands.getD index.toNat default).content)
    else (s, false, [])
  else (s, false, [])

/-- CommandStorage._read_stream: each line read from the child's pipe is
decoded (utf-8, errors replaced) and, when non-empty, passed to the
registered callback exactly as decoded — no transformation is applied before
the sink receives it. The result lists the chunks the sink receives. -/
def read_stream_deliveries (lines : List PyStr) : List PyStr :=
  lines.filter (fun line => line ≠ [])

/-- Python object references for the aliasing model of get_commands: an index
into the heap of live Command objects. -/
abbrev Ref := Nat

/-- The registry object as the Python runtime sees it: self._commands is a
list of references to mutable Command dataclass objects on the heap. -/
structure RegistryObj where
  commands : List Ref

/-- CommandStorage.get_commands: returns self._commands.copy() — a NEW list
object holding the SAME references (list.copy is shallow). -/
def get_commands (r : RegistryObj) : List Ref := r.commands

/-- The registry's observable contents: each held reference dereferenced
through the heap of Command objects. -/
def registry_view (heap : List Command) (r : RegistryObj) : List Command :=
  r.commands.map (fun ref => heap.getD ref default)

/-- A caller's in-place field assignment cmd.name = v on the Command object
at ref: Command is a plain dataclass (not frozen), so this mutates the shared
object on the heap. -/
def set_name (heap : List Command) (ref : Ref) (v : PyStr) : List Command :=
  heap.set ref { heap.getD ref default with name := v }

/-- The escape character that starts every match of the stripping regex in
ConsoleView._strip_ansi_codes. -/
def ansiEsc : Char := '\x1b'

/-- CSI parameter byte class of the stripping regex: 0x30 to 0x3F. -/
def isCsiParam (c : Char) : Bool := 0x30 ≤ c.toNat && c.toNat ≤ 0x3F

/-- CSI intermediate byte class of the stripping regex: 0x20 to 0x2F. -/
def isCsiIntermediate (c : Char) : Bool := 0x20 ≤ c.toNat && c.toNat ≤ 0x2F

/-- CSI final byte class of the stripping regex: 0x40 to 0x7E. -/
def isCsiFinal (c : Char) : Bool := 0x40 ≤ c.toNat && c.toNat ≤ 0x7E

/-- The single-character escape alternative of the stripping regex: 0x40 to
0x5A or 0x5C to 0x5F (the bracket 0x5B is left to the CSI alternative). -/
def isSingleCharEscape (c : Char) : Bool :=
  (0x40 ≤ c.toNat && c.toNat ≤ 0x5A) || (0x5C ≤ c.toNat && c.toNat ≤ 0x5F)

/-- Greedy consumption of CSI parameter bytes. -/
def skipCsiParams : PyStr → PyStr
  | [] => []
  | c :: rest => if isCsiParam c then skipCsiParams rest else c :: rest

/-- Greedy consumption of CSI intermediate bytes. -/
def skipCsiIntermediates : PyStr → PyStr
  | [] => []
  | c :: rest => if isCsiIntermediate c then skipCsiIntermediates rest else c :: rest

/-- Final step of the CSI alternative: after the parameter and intermediate
bytes there must stand one final byte for the regex to match. -/
def finishCsi : PyStr → Option PyStr
  | [] => none
  | f :: rest' => if isCsiFinal f then some rest' else none

/-- Matches the part of the stripping regex that follows the escape
character: either one single-character escape, or a bracket, any number of
parameter bytes, any number of intermediate bytes and one final byte. The
three CSI byte classes are pairwise disjoint, so the greedy match needs no
backtracking. Returns the characters after the match when it succeeds. -/
def matchEscapeBody : PyStr → Option PyStr
  | [] => none
  | c :: rest =>
    if isSingleCharEscape c then some rest
    else if c = '[' then finishCsi (skipCsiIntermediates (skipCsiParams rest))
    else none

/-- Worker for the regex substitution of _strip_ansi_codes, structural in a
fuel argument that the wrapper instantiates with the text's length (a match
consumes at least one character beyond the escape character, so length many
steps always suffice and the fuel-exhausted branch is never reached). Scans
left to right: an escape character whose continuation matches has the whole
match dropped and scanning resumes after it; at an escape character with no
match the character is kept and scanning resumes right after it, as re.sub
does; every other character is kept. -/
def stripAnsiGo : Nat → PyStr → PyStr
  | _, [] => []
  | 0, s => s
  | fuel + 1, c :: rest =>
    if c = ansiEsc then
      match matchEscapeBody rest with
      | some rest' => stripAnsiGo fuel rest'
      | none => c :: stripAnsiGo fuel rest
    else c :: stripAnsiGo fuel rest

/-- ConsoleView._strip_ansi_codes: ansi_escape.sub applied to the text. -/
def strip_ansi_codes (text : PyStr) : PyStr := stripAnsiGo text.length text

/-- ConsoleView.append_output (append_error behaves identically here): strips
the ANSI codes from the received chunk and inserts the cleaned text at the
end of the console document. -/
def append_output (console : PyStr) (text : PyStr) : PyStr :=
  console ++ strip_ansi_codes text

/-- One match of the stripping regex, as a predicate on character lists: the
escape character followed by a single-character escape, or by a bracket, CSI
parameter bytes, CSI intermediate bytes and a CSI final byte. -/
def IsAnsiEscape (e : PyStr) : Prop :=
  (∃ c, isSingleCharEscape c = true ∧ e = [ansiEsc, c]) ∨
  (∃ ps ins f, (∀ p ∈ ps, isCsiParam p = true) ∧
    (∀ i ∈ ins, isCsiIntermediate i = true) ∧ isCsiFinal f = true ∧
    e = ansiEsc :: '[' :: (ps ++ ins ++ [f]))

theorem skipCsiParams_length_le (s : PyStr) : (skipCsiParams s).length ≤ s.length := by
  induction s with
  | nil => simp [skipCsiParams]
  | cons c rest ih =>
    simp only [skipCsiParams]
    split
    · exact ih.trans (Nat.le_succ _)
    · exact Nat.le_refl _

theorem skipCsiIntermediates_length_le (s : PyStr) :
    (skipCsiIntermediates s).length ≤ s.length := by
  induction s with
  | nil => simp [skipCsiIntermediates]
  | cons c rest ih =>
    simp only [skipCsiIntermediates]
    split
    · exact ih.trans (Nat.le_succ _)
    · exact Nat.le_refl _

theorem isCsiParam_false_of_final (c : Char) (h : isCsiFinal c = true) :
    isCsiParam c = false := by
  rw [Bool.eq_false_iff]
  simp only [isCsiParam, ne_eq, Bool.and_eq_true, decide_eq_true_eq]
  simp only [isCsiFinal, Bool.and_eq_true, decide_eq_true_eq] at h
  omega

theorem isCsiParam_false_of_intermediate (c : Char) (h : isCsiIntermediate c = true) :
    isCsiParam c = false := by
  rw [Bool.eq_false_iff]
  simp only [isCsiParam, ne_eq, Bool.and_eq_true, decide_eq_true_eq]
  simp only [isCsiIntermediate, Bool.and_eq_true, decide_eq_true_eq] at h
  omega

theorem isCsiIntermediate_false_of_final (c : Char) (h : isCsiFinal c = true) :
    isCsiIntermediate c = false := by
  rw [Bool.eq_false_iff]
  simp only [isCsiIntermediate, ne_eq, Bool.and_eq_true, decide_eq_true_eq]
  simp only [isCsiFinal, Bool.and_eq_true, decide_eq_true_eq] at h
  omega

theorem matchEscapeBody_length_le (s t : PyStr) (h : matchEscapeBody s = some t) :
    t.length ≤ s.length := by
  cases s with
  | nil => simp [matchEscapeBody] at h
  | cons c rest =>
    simp only [matchEscapeBody] at h
    split at h
    · simp only [Option.some.injEq] at h
      subst h
      exact Nat.le_succ _
    · split at h
      · cases heq : skipCsiIntermediates (skipCsiParams rest) with
        | nil => rw [heq] at h; simp [finishCsi] at h
        | cons f rest' =>
          rw [heq] at h
          simp only [finishCsi] at h
          by_cases hf : isCsiFinal f = true
          · rw [if_pos hf] at h
            simp only [Option.some.injEq] at h
            subst h
            have h1 : (f :: rest').length ≤ rest.length := by
              rw [← heq]
              exact (skipCsiIntermediates_length_le _).trans (skipCsiParams_length_le _)
            simp only [List.length_cons] at h1 ⊢
            omega
          · rw [if_neg hf] at h
            simp at h
      · simp at h

theorem stripAnsiGo_fuel_irrel (fuel₁ : Nat) :
    ∀ (fuel₂ : Nat) (s : PyStr), s.length ≤ fuel₁ → s.length ≤ fuel₂ →
      stripAnsiGo fuel₁ s = stripAnsiGo fuel₂ s := by
  induction fuel₁ with
  | zero =>
    intro fuel₂ s h1 _
    have : s = [] := List.length_eq_zero.mp (Nat.le_zero.mp h1)
    subst this
    cases fuel₂ <;> rfl
  | succ f₁ ih =>
    intro fuel₂ s h1 h2
    cases s with
    | nil => cases fuel₂ <;> rfl
    | cons c rest =>
      cases fuel₂ with
      | zero => exact absurd h2 (by simp)
      | succ f₂ =>
        have hr1 : rest.length ≤ f₁ := Nat.lt_succ_iff.mp h1
        have hr2 : rest.length ≤ f₂ := Nat.lt_succ_iff.mp h2
        simp only [stripAnsiGo]
        split
        · cases hm : matchEscapeBody rest with
          | some rest' =>
            have hb := matchEscapeBody_length_le rest rest' hm
            exact ih f₂ rest' (hb.trans hr1) (hb.trans hr2)
          | none => rw [ih f₂ rest hr1 hr2]
        · rw [ih f₂ rest hr1 hr2]

theorem skipCsiParams_append (ps l : PyStr) (h : ∀ p ∈ ps, isCsiParam p = true) :
    skipCsiParams (ps ++ l) = skipCsiParams l := by
  induction ps with
  | nil => rfl
  | cons p ps ih =>
    simp only [List.cons_append, skipCsiParams, h p (by simp), if_true]
    exact ih fun q hq => h q (by simp [hq])

theorem skipCsiIntermediates_append (ins l : PyStr)
    (h : ∀ i ∈ ins, isCsiIntermediate i = true) :
    skipCsiIntermediates (ins ++ l) = skipCsiIntermediates l := by
  induction ins with
  | nil => rfl
  | cons i ins ih =>
    simp only [List.cons_append, skipCsiIntermediates, h i (by simp), if_true]
    exact ih fun q hq => h q (by simp [hq])

theorem matchEscapeBody_of_escape (e : PyStr) (he : IsAnsiEscape e) (post : PyStr) :
    matchEscapeBody (e.tail ++ post) = some post := by
  rcases he with ⟨c, hc, rfl⟩ | ⟨ps, ins, f, hps, hins, hf, rfl⟩
  · simp [matchEscapeBody, hc]
  · have hbr : isSingleCharEscape '[' = false := by decide
    simp only [List.tail_cons, List.cons_append, matchEscapeBody, hbr, Bool.false_eq_true,
      if_false, if_pos rfl]
    have h1 : skipCsiParams ((ps ++ ins ++ [f]) ++ post) = skipCsiParams (ins ++ f :: post) := by
      rw [List.append_assoc, List.append_assoc, List.singleton_append,
        skipCsiParams_append ps _ hps]
    have h2 : skipCsiParams (ins ++ f :: post) = ins ++ f :: post := by
      cases ins with
      | nil => simp [skipCsiParams, isCsiParam_false_of_final f hf]
      | cons i ins =>
        simp [skipCsiParams, isCsiParam_false_of_intermediate i (hins i (by simp))]
    have h3 : skipCsiIntermediates (ins ++ f :: post) = f :: post := by
      rw [skipCsiIntermediates_append ins _ hins]
      simp [skipCsiIntermediates, isCsiIntermediate_false_of_final f hf]
    rw [h1, h2, h3]
    simp [finishCsi, hf]

theorem IsAnsiEscape_shape (e : PyStr) (he : IsAnsiEscape e) :
    ∃ body, e = ansiEsc :: body := by
  rcases he with ⟨c, _, rfl⟩ | ⟨ps, ins, f, _, _, _, rfl⟩
  · exact ⟨[c], rfl⟩
  · exact ⟨_, rfl⟩

theorem stripAnsiGo_skips_escape (pre : PyStr) :
    ∀ (fuel : Nat) (e post : PyStr), (pre ++ e ++ post).length ≤ fuel →
      (∀ c ∈ pre, c ≠ ansiEsc) → IsAnsiEscape e →
      stripAnsiGo fuel (pre ++ e ++ post) = pre ++ stripAnsiGo fuel post := by
  induction pre with
  | nil =>
    intro fuel e post hfuel _ he
    obtain ⟨body, rfl⟩ := IsAnsiEscape_shape e he
    simp only [List.nil_append, List.length_cons, List.cons_append, List.length_append] at hfuel ⊢
    cases fuel with
    | zero => omega
    | succ f =>
      simp only [stripAnsiGo, if_pos rfl]
      have hm : matchEscapeBody (body ++ post) = some post :=
        matchEscapeBody_of_escape _ he post
      rw [hm]
      exact stripAnsiGo_fuel_irrel f (f + 1) post (by omega) (by omega)
  | cons c pre ih =>
    intro fuel e post hfuel hpre he
    have hc : c ≠ ansiEsc := hpre c (by simp)
    simp only [List.cons_append, List.length_cons] at hfuel ⊢
    cases fuel with
    | zero => omega
    | succ f =>
      simp only [stripAnsiGo, if_neg hc]
      rw [ih f e post (by omega) (fun d hd => hpre d (by simp [hd])) he]
      have hp : post.length ≤ f := by
        have := List.length_append (pre ++ e) post ▸ hfuel
        simp only [List.length_append] at hfuel ⊢
        omega
      rw [stripAnsiGo_fuel_irrel f (f + 1) post hp (by omega)]

theorem strip_ansi_skips_escape (pre e post : PyStr)
    (hpre : ∀ c ∈ pre, c ≠ ansiEsc) (he : IsAnsiEscape e) :
    strip_ansi_codes (pre ++ e ++ post) = pre ++ strip_ansi_codes post := by
  unfold strip_ansi_codes
  rw [stripAnsiGo_skips_escape pre _ e post (Nat.le_refl _) hpre he]
  congr 1
  exact stripAnsiGo_fuel_irrel _ _ post (by simp [List.length_append]; omega) (Nat.le_refl _)

/-- A concrete OS that accepts every launch, has every path, and gives every
child exit code 1 — every launched command is guaranteed to exit non-zero. -/
def envAcceptAll : OSEnv :=
  { launchOk := fun _ => true, fileExists := fun _ => true, exitCode := fun _ => 1 }

/-- A concrete OS that accepts every launch but whose filesystem holds no
paths at all. -/
def envNoFiles : OSEnv :=
  { launchOk := fun _ => true, fileExists := fun _ => false, exitCode := fun _ => 0 }

def cmdA : Command := ⟨"A".data, "single".data, "echo 1".data, []⟩

def cmdB : Command := ⟨"B".data, "single".data, "echo 2".data, []⟩

def cmdC : Command := ⟨"C".data, "single".data, "echo 3".data, []⟩

def cmdScript : Command := ⟨"S".data, "script".data, "/tmp/missing.sh".data, []⟩

/-- A registry holding the one command A, in sync with its stored document. -/
def stateA : StorageState := ⟨[cmdA], StoredDoc.doc [cmdA.to_dict]⟩

/-- A registry holding [A, B, C], in sync with its stored document. -/
def stateABC : StorageState :=
  ⟨[cmdA, cmdB, cmdC], StoredDoc.doc ([cmdA, cmdB, cmdC].map Command.to_dict)⟩

/-- A registry holding the one script command S, whose payload path the OS
envNoFiles does not have. -/
def stateScript : StorageState := ⟨[cmdScript], StoredDoc.doc [cmdScript.to_dict]⟩

theorem execute_command_shape (env : OSEnv) (s : StorageState) (index : Int) :
    (∃ t, (execute_command env s index).2 = (env.launchOk t, [t])) ∨
    (execute_command env s index).2 = (false, []) := by
  unfold execute_command
  by_cases h : 0 ≤ index ∧ index < (s.commands.length : Int)
  · rw [if_pos h]
    by_cases h1 : (s.commands.getD index.toNat default).command_type = "single".data
    · rw [if_pos h1]
      exact Or.inl ⟨_, rfl⟩
    · rw [if_neg h1]
      by_cases h2 : (s.commands.getD index.toNat default).command_type = "multi".data
      · rw [if_pos h2]
        unfold _execute_multi_commands
        by_cases h4 : effective_commands (s.commands.getD index.toNat default).content = []
        · rw [if_pos h4]
          exact Or.inr rfl
        · rw [if_neg h4]
          exact Or.inl ⟨_, rfl⟩
      · rw [if_neg h2]
        by_cases h3 : (s.commands.getD index.toNat default).command_type = "script".data
        · rw [if_pos h3]
          unfold _execute_script
          by_cases h5 :
              env.fileExists (s.commands.getD index.toNat default).content = true
          · rw [if_pos h5]
            exact Or.inl ⟨_, rfl⟩
          · rw [if_neg h5]
            exact Or.inr rfl
        · rw [if_neg h3]
          exact Or.inr rfl
  · rw [if_neg h]
    exact Or.inr rfl

theorem execute_command_exitCode_irrel (l fe : PyStr → Bool) (x₁ x₂ : PyStr → Int)
    (s : StorageState) (index : Int) :
    execute_command ⟨l, fe, x₁⟩ s index = execute_command ⟨l, fe, x₂⟩ s index := rfl

/-- C1: for every registry and valid index, executing returns success exactly
as the OS accepts the attempted launch, and the result does not wait on — and
is entirely independent of — the child's eventual exit code: replacing the
exit-code oracle leaves the result untouched, so a command guaranteed to exit
non-zero still reports launch success. -/
theorem execute_success_is_launch_acceptance (env : OSEnv) (f : PyStr → Int)
    (s : StorageState) (index : Int)
    (hvalid : 0 ≤ index ∧ index < (s.commands.length : Int))
    (hattempt : (execute_command env s index).2.2 ≠ [])
    (haccept : ∀ t ∈ (execute_command env s index).2.2, env.launchOk t = true) :
    (execute_command env s index).2.1 = true ∧
    execute_command { env with exitCode := f } s index = execute_command env s index := by
  constructor
  · rcases execute_command_shape env s index with ⟨t, ht⟩ | hnone
    · have hm : t ∈ (execute_command env s index).2.2 := by
        rw [ht]
        exact List.mem_singleton.mpr rfl
      have h1 : (execute_command env s index).2.1 = env.launchOk t := by rw [ht]
      rw [h1, haccept t hm]
    · rw [hnone] at hattempt
      exact absurd rfl hattempt
  · exact execute_command_exitCode_irrel env.launchOk env.fileExists f env.exitCode s index

/-- C1 witness: on the registry [A] over an OS that accepts every launch and
gives every child exit code 1, execution at index 0 reports success, and the
whole result is unchanged when the exit-code oracle is replaced. -/
theorem execute_success_is_launch_acceptance_witness :
    (execute_command envAcceptAll stateA 0).2.1 = true ∧
    execute_command { envAcceptAll with exitCode := fun _ => 0 } stateA 0 =
      execute_command envAcceptAll stateA 0 :=
  execute_success_is_launch_acceptance envAcceptAll (fun _ => 0) stateA 0
    (by decide) (by decide) (fun t _ => rfl)

/-- Modelled from the spec sentence on move, for comparison with the code's
move_command: remove the entry at from_index, then re-insert it at position
to_index of the sequence after removal. -/
def movedSpec (l : List Command) (from_index to_index : Nat) : List Command :=
  (l.eraseIdx from_index).insertIdx to_index (l.getD from_index default)

/-- C2: with both indices in range against the pre-operation length,
move_command succeeds and its in-memory sequence is the pop-then-insert
result; with either index out of range it fails and changes nothing; and
move(0, 2) on [A, B, C] yields [B, C, A]. -/
theorem move_command_pop_then_insert (writeOk : Bool) (s : StorageState)
    (from_index to_index : Int) :
    ((0 ≤ from_index ∧ from_index < (s.commands.length : Int)) ∧
        (0 ≤ to_index ∧ to_index < (s.commands.length : Int)) →
      (move_command writeOk s from_index to_index).2 = true ∧
      (move_command writeOk s from_index to_index).1.commands =
        movedSpec s.commands from_index.toNat to_index.toNat) ∧
    (¬ ((0 ≤ from_index ∧ from_index < (s.commands.length : Int)) ∧
        (0 ≤ to_index ∧ to_index < (s.commands.length : Int))) →
      move_command writeOk s from_index to_index = (s, false)) ∧
    (move_command writeOk stateABC 0 2).1.commands = [cmdB, cmdC, cmdA] := by
  refine ⟨fun h => ?_, fun h => ?_, ?_⟩
  · unfold move_command
    rw [if_pos h]
    exact ⟨rfl, by cases writeOk <;> rfl⟩
  · unfold move_command
    rw [if_neg h]
  · cases writeOk <;> decide

/-- C2 witness: move(0, 2) on the registry [A, B, C] succeeds with the
pop-then-insert sequence. -/
theorem move_command_pop_then_insert_witness :
    (move_command true stateABC 0 2).2 = true ∧
    (move_command true stateABC 0 2).1.commands =
      movedSpec stateABC.commands (0 : Int).toNat (2 : Int).toNat :=
  (move_command_pop_then_insert true stateABC 0 2).1 (by decide)

/-- C3: an index outside the valid range makes update, delete, move (with the
bad index on either side) and execute each return failure with the state —
the in-memory list and the stored document — unchanged and not re-written;
all the operations are total, so no exception escapes. -/
theorem invalid_index_rejected (writeOk : Bool) (env : OSEnv) (s : StorageState)
    (index other : Int) (command : Command)
    (h : ¬ (0 ≤ index ∧ index < (s.commands.length : Int))) :
    update_command writeOk s index command = (s, false) ∧
    delete_command writeOk s index = (s, false) ∧
    move_command writeOk s index other = (s, false) ∧
    move_command writeOk s other index = (s, false) ∧
    execute_command env s index = (s, false, []) := by
  refine ⟨?_, ?_, ?_, ?_, ?_⟩
  · unfold update_command
    rw [if_neg h]
  · unfold delete_command
    rw [if_neg h]
  · unfold move_command
    rw [if_neg fun hc => h hc.1]
  · unfold move_command
    rw [if_neg fun hc => h hc.2]
  · unfold execute_command
    rw [if_neg h]

/-- C3 witness: index 5 on the one-element registry [A] is rejected by every
index-taking operation with the state unchanged. -/
theorem invalid_index_rejected_witness :
    update_command true stateA 5 cmdB = (stateA, false) ∧
    delete_command true stateA 5 = (stateA, false) ∧
    move_command true stateA 5 0 = (stateA, false) ∧
    move_command true stateA 0 5 = (stateA, false) ∧
    execute_command envAcceptAll stateA 5 = (stateA, false, []) :=
  invalid_index_rejected true envAcceptAll stateA 5 0 cmdB (by decide)

/-- C4: constructing a registry over an absent document and over a malformed
document both yield the empty collection — the load is total, so no
exception escapes — and the registry stays usable: a subsequent add appends
normally. -/
theorem load_recovers_with_empty_collection :
    (init_storage StoredDoc.absent).commands = [] ∧
    (init_storage StoredDoc.malformed).commands = [] ∧
    (∀ c : Command, (add_command true (init_storage StoredDoc.absent) c).commands = [c]) ∧
    (∀ c : Command, (add_command true (init_storage StoredDoc.malformed) c).commands = [c]) :=
  ⟨rfl, rfl, fun _ => rfl, fun _ => rfl⟩

/-- C5: a Multi payload is split on newlines, its lines stripped and the
blank ones dropped; with at least one surviving line the lines are rejoined
with newlines and launched as ONE interpreter invocation on the combined
script; with none surviving the launch is refused with failure; and the
payload with a blank middle line has exactly its two effective lines. -/
theorem multi_combines_into_one_launch (env : OSEnv) (commands_text : PyStr) :
    (effective_commands commands_text ≠ [] →
      _execute_multi_commands env commands_text =
        (env.launchOk (joinNl (effective_commands commands_text)),
          [joinNl (effective_commands commands_text)])) ∧
    (effective_commands commands_text = [] →
      _execute_multi_commands env commands_text = (false, [])) ∧
    effective_commands ("echo line1\n\necho line2".data) =
      ["echo line1".data, "echo line2".data] := by
  refine ⟨fun h => ?_, fun h => ?_, by decide⟩
  · unfold _execute_multi_commands
    rw [if_neg h]
  · unfold _execute_multi_commands
    rw [if_pos h]

/-- C5 witness: the blank-middle-line payload launches once, as the single
combined two-line script, successfully on an OS accepting every launch. -/
theorem multi_combines_into_one_launch_witness :
    _execute_multi_commands envAcceptAll ("echo line1\n\necho line2".data) =
      (envAcceptAll.launchOk
          (joinNl (effective_commands ("echo line1\n\necho line2".data))),
        [joinNl (effective_commands ("echo line1\n\necho line2".data))]) :=
  (multi_combines_into_one_launch envAcceptAll ("echo line1\n\necho line2".data)).1
    (by decide)

/-- C6: executing a Script command whose payload path does not exist returns
failure and never attempts an OS launch — the launch list is empty because
the existence check strictly precedes any Popen call. -/
theorem script_not_found_never_launches (env : OSEnv) (s : StorageState) (index : Int)
    (hvalid : 0 ≤ index ∧ index < (s.commands.length : Int))
    (htype : (s.commands.getD index.toNat default).command_type = "script".data)
    (hmissing : env.fileExists (s.commands.getD index.toNat default).content = false) :
    execute_command env s index = (s, false, []) := by
  unfold execute_command
  rw [if_pos hvalid, htype]
  rw [if_neg (by decide), if_neg (by decide), if_pos rfl]
  unfold _execute_script
  rw [hmissing]
  rw [if_neg (by simp)]

/-- C6 witness: the registry [S] whose script path the OS does not have:
execution at index 0 fails with no launch attempted. -/
theorem script_not_found_never_launches_witness :
    execute_command envNoFiles stateScript 0 = (stateScript, false, []) :=
  script_not_found_never_launches envNoFiles stateScript 0 (by decide) (by decide) rfl

/-- A sequence of add_command calls, as a caller makes them one after the
other. -/
def add_all (writeOk : Bool) (s : StorageState) (cs : List Command) : StorageState :=
  cs.foldl (add_command writeOk) s

theorem add_all_stored (cs : List Command) :
    ∀ s : StorageState, cs ≠ [] →
      (add_all true s cs).stored =
        StoredDoc.doc ((add_all true s cs).commands.map Command.to_dict) := by
  induction cs with
  | nil => exact fun s h => absurd rfl h
  | cons c rest ih =>
    intro s _
    cases rest with
    | nil => rfl
    | cons d ds => exact ih (add_command true s c) (by simp)

/-- C7: every Command round-trips through its four-field serialization, and
after any non-empty sequence of adds, a fresh registry constructed over the
same stored document holds an ordered collection equal to the first
registry's. -/
theorem add_then_reload_roundtrip (s : StorageState) (cs : List Command) (h : cs ≠ []) :
    (∀ c : Command, Command.from_dict (Command.to_dict c) = c) ∧
    (init_storage (add_all true s cs).stored).commands = (add_all true s cs).commands := by
  refine ⟨fun _ => rfl, ?_⟩
  rw [add_all_stored cs s h]
  simp only [init_storage, _load_commands, List.map_map]
  have hid : (Command.from_dict ∘ Command.to_dict) = id := funext fun _ => rfl
  rw [hid, List.map_id]

/-- C7 witness: adding A to the empty registry and constructing a fresh
registry over the stored document yields the same collection. -/
theorem add_then_reload_roundtrip_witness :
    (∀ c : Command, Command.from_dict (Command.to_dict c) = c) ∧
    (init_storage (add_all true (init_storage StoredDoc.absent) [cmdA]).stored).commands =
      (add_all true (init_storage StoredDoc.absent) [cmdA]).commands :=
  add_then_reload_roundtrip (init_storage StoredDoc.absent) [cmdA] (by decide)

/-- C8 counterexample: the decoded chunk holding the escape sequence for red
is delivered to the registered sink exactly as decoded — _read_stream applies
no stripping before delivery, so the sink does not receive plain text; the
stripping only happens afterwards, inside the console view. -/
theorem sink_receives_unstripped_chunk :
    read_stream_deliveries [("\x1b[31mred\n".data)] = [("\x1b[31mred\n".data)] ∧
    strip_ansi_codes ("\x1b[31mred\n".data) ≠ "\x1b[31mred\n".data :=
  ⟨by decide, by decide⟩

/-- C8 (amended): a chunk is delivered to the registered sink as decoded,
escape sequences intact; the ANSI stripping (escape character followed by a
CSI sequence or a single-character escape) is applied by the console view on
receipt of the chunk, before display: the escape sequence is removed and the
surrounding text is left intact, so the displayed text is plain. -/
theorem console_strips_ansi_on_receipt (console pre e post : PyStr)
    (hpre : ∀ c ∈ pre, c ≠ ansiEsc) (he : IsAnsiEscape e) :
    read_stream_deliveries [pre ++ e ++ post] = [pre ++ e ++ post] ∧
    append_output console (pre ++ e ++ post) =
      console ++ (pre ++ strip_ansi_codes post) := by
  constructor
  · obtain ⟨body, rfl⟩ := IsAnsiEscape_shape e he
    have hne : pre ++ (ansiEsc :: body) ++ post ≠ [] := by simp
    simp [read_stream_deliveries, hne]
  · unfold append_output
    rw [strip_ansi_skips_escape pre e post hpre he]

/-- C8 witness: the chunk made of the letter a, the red escape sequence and
the word red arrives at the console intact and is displayed with the escape
sequence removed and the surrounding text kept. -/
theorem console_strips_ansi_on_receipt_witness :
    read_stream_deliveries [("a".data ++ "\x1b[31m".data ++ "red".data)] =
      [("a".data ++ "\x1b[31m".data ++ "red".data)] ∧
    append_output [] ("a".data ++ "\x1b[31m".data ++ "red".data) =
      [] ++ ("a".data ++ strip_ansi_codes ("red".data)) :=
  console_strips_ansi_on_receipt [] ("a".data) ("\x1b[31m".data) ("red".data)
    (by decide)
    (Or.inr ⟨['3', '1'], [], 'm', by decide, by decide, by decide, rfl⟩)

/-- The heap of one live Command object and a registry referencing it. -/
def heap₀ : List Command := [cmdA]

def reg₀ : RegistryObj := ⟨[0]⟩

/-- C9 counterexample: mutating the command entry at position 0 of the
snapshot that get_commands returned changes the registry's own observable
state — the snapshot is self._commands.copy(), a shallow copy sharing the
mutable Command objects, so entry mutation does not leave the registry
unchanged. -/
theorem snapshot_entry_mutation_changes_registry :
    registry_view (set_name heap₀ ((get_commands reg₀).getD 0 0) ("X".data)) reg₀ ≠
      registry_view heap₀ reg₀ := by decide

/-- C9 (amended): get_commands returns a fresh list holding the same Command
references (list.copy is shallow), so the snapshot's contents equal the
registry's; but an in-place field assignment on the Command object referenced
at snapshot position k is visible at registry position k. -/
theorem get_commands_is_shallow_copy (heap : List Command) (r : RegistryObj)
    (k : Nat) (v : PyStr)
    (hk : k < r.commands.length)
    (href : r.commands.getD k 0 < heap.length) :
    get_commands r = r.commands ∧
    registry_view heap ⟨get_commands r⟩ = registry_view heap r ∧
    (registry_view (set_name heap ((get_commands r).getD k 0) v) r).getD k default =
      { (registry_view heap r).getD k default with name := v } := by
  refine ⟨rfl, rfl, ?_⟩
  have hmap : ∀ H : List Command,
      (r.commands.map fun ref => H.getD ref default).getD k default =
        H.getD (r.commands.getD k 0) default := by
    intro H
    rw [List.getD_eq_getElem _ _ (by simpa using hk), List.getElem_map,
      List.getD_eq_getElem _ _ hk]
  unfold registry_view get_commands set_name
  rw [hmap, hmap]
  rw [List.getD_eq_getElem _ _ (by simpa using href),
    List.getElem_set_self _]

/-- C9 witness: on the one-object heap, renaming through the snapshot's entry
0 renames the registry's entry 0. -/
theorem get_commands_is_shallow_copy_witness :
    get_commands reg₀ = reg₀.commands ∧
    registry_view heap₀ ⟨get_commands reg₀⟩ = registry_view heap₀ reg₀ ∧
    (registry_view (set_name heap₀ ((get_commands reg₀).getD 0 0) ("X".data)) reg₀).getD
        0 default =
      { (registry_view heap₀ reg₀).getD 0 default with name := "X".data } :=
  get_commands_is_shallow_copy heap₀ reg₀ 0 ("X".data) (by decide) (by decide)

/-- C10: when the synchronous persistence write fails, every mutation whose
index precondition holds still applies in memory, still reports success and
leaves the stored document untouched — so in-memory and on-disk state
diverge; the operations are total, so no exception reaches the caller. -/
theorem write_failure_keeps_mutation (s : StorageState) (c : Command) (i j : Int)
    (hi : 0 ≤ i ∧ i < (s.commands.length : Int))
    (hj : 0 ≤ j ∧ j < (s.commands.length : Int)) :
    add_command false s c = { commands := s.commands ++ [c], stored := s.stored } ∧
    update_command false s i c =
      ({ commands := s.commands.set i.toNat c, stored := s.stored }, true) ∧
    delete_command false s i =
      ({ commands := s.commands.eraseIdx i.toNat, stored := s.stored }, true) ∧
    move_command false s i j =
      ({ commands := (s.commands.eraseIdx i.toNat).insertIdx j.toNat
          (s.commands.getD i.toNat default), stored := s.stored }, true) := by
  refine ⟨rfl, ?_, ?_, ?_⟩
  · unfold update_command
    rw [if_pos hi]
    rfl
  · unfold delete_command
    rw [if_pos hi]
    rfl
  · unfold move_command
    rw [if_pos ⟨hi, hj⟩]
    rfl

/-- C10 witness: on the registry [A, B, C] with the write failing, add at the
end, update at 0, delete at 0 and move 0 to 1 all keep their in-memory
effect, report success and leave the stored document as it was. -/
theorem write_failure_keeps_mutation_witness :
    add_command false stateABC cmdA =
      { commands := stateABC.commands ++ [cmdA], stored := stateABC.stored } ∧
    update_command false stateABC 0 cmdA =
      ({ commands := stateABC.commands.set 0 cmdA, stored := stateABC.stored }, true) ∧
    delete_command false stateABC 0 =
      ({ commands := stateABC.commands.eraseIdx 0, stored := stateABC.stored }, true) ∧
    move_command false stateABC 0 1 =
      ({ commands := (stateABC.commands.eraseIdx 0).insertIdx 1
          (stateABC.commands.getD 0 default), stored := stateABC.stored }, true) :=
  write_failure_keeps_mutation stateABC cmdA 0 1 (by decide) (by decide)

end BashRunner
